import Mathlib

/-!
Verification of the ASHF (AEROCAT Secure Hash Function) repository
against its natural-language specification.

The source is a single JavaScript file (src/Main.js).  Pure byte-level
transformations (the avalanche diffusion, the dynamic S-box, the payload
concatenation) are embedded directly as Lean functions on `List Nat`
(bytes are naturals, reduced `% 256` exactly where the JavaScript typed
arrays or explicit `% 256` operations do so).  The external cryptographic
primitives (PBKDF2 key derivation, AES-GCM, HMAC-SHA-512, SHA-512),
which the source invokes through `crypto.subtle` and which the spec
declares out of scope ("trusted black boxes with standard contracts"),
are modelled as fields of a `CryptoPrimitives` structure so theorems can
quantify over every primitive family satisfying the stated contracts.

The copy of the source available for this development is truncated after
line 200 (inside `applyAvalancheEffect`'s loop body); the bodies of
`deriveCryptoKey`, `exportKeyMaterial`, `applyDynamicSubstitution`,
`encodeSecurityPayload` and the whole decryption path are therefore
missing, although their call sites, argument lists and the header
documentation are present.  Definitions for those parts are modelled
from the spec and are marked as such in their doc comments.
-/

namespace ASHF

/-! ### Diffusion layer (`applyAvalancheEffect`, src/Main.js lines 193-200)

JavaScript source, executed in place on a `Uint8Array`:
```
for (let round = 0; round < 3; round++) \x7b
  state.forEach((_, index) => \x7b
    state[index] ^= state[(index + 7) % state.length];
    state[index] = (state[index] * 0x1F) % 256;
  \x7d);
\x7d
```
`forEach` visits the indices in ascending order and the updates are in
place, so the byte read at `(index + 7) % length` already holds its
current-round value whenever that position precedes `index`. -/

/-- One in-place update of `applyAvalancheEffect` at position `i`:
`state[i] = ((state[i] ^ state[(i+7) % n]) * 0x1F) % 256`. -/
def avalancheStep (st : List Nat) (i : Nat) : List Nat :=
  st.set i ((((st.getD i 0) ^^^ (st.getD ((i + 7) % st.length) 0)) * 31) % 256)

/-- One round of `applyAvalancheEffect`: the in-place update applied at the
indices `0, 1, ..., length-1` in ascending order. -/
def avalancheRound (s : List Nat) : List Nat :=
  (List.range s.length).foldl avalancheStep s

/-- `applyAvalancheEffect` (src/Main.js lines 193-200): three rounds of the
in-place diffusion update. -/
def applyAvalancheEffect (s : List Nat) : List Nat :=
  avalancheRound (avalancheRound (avalancheRound s))

/-! ### Legacy avalanche (`avalancheEffect`, src/Main.js lines 64-70)

```
return state.map((b, i) => \x7b
  const prev = state[(i - 1 + state.length) % state.length];
  const next = state[(i + 1) % state.length];
  return (b ^ prev ^ next) + (prev & next);
\x7d);
```
`state` is a `Uint8Array` at every call site, so the stored value is
reduced modulo 256 by the typed-array write. -/

/-- `avalancheEffect` (src/Main.js lines 64-70), the legacy single-pass
neighbour mixing used by `vortexEncrypt`. -/
def avalancheEffect (state : List Nat) : List Nat :=
  state.mapIdx (fun i b =>
    let prev := state.getD ((i + state.length - 1) % state.length) 0
    let next := state.getD ((i + 1) % state.length) 0
    ((b ^^^ prev ^^^ next) + (prev &&& next)) % 256)

/-! ### Dynamic S-box (`createDynamicSBox`, src/Main.js lines 54-61)

```
const sBox = Array.from(\x7blength: 256\x7d, (_, i) => i);
for (let i = 0; i < 256; i++) \x7b
  const swapIdx = (key[i % key.length] + i * 179426549) % 256;
  [sBox[i], sBox[swapIdx]] = [sBox[swapIdx], sBox[i]];
\x7d
return sBox;
```
The destructuring assignment evaluates the right-hand side first, so for
`i = swapIdx` the array is left unchanged. -/

/-- The JavaScript destructuring swap `[s[i], s[j]] = [s[j], s[i]]`:
both old values are read first, then written back crosswise. -/
def sboxSwap (s : List Nat) (i j : Nat) : List Nat :=
  (s.set i (s.getD j 0)).set j (s.getD i 0)

/-- `createDynamicSBox` (src/Main.js lines 54-61). -/
def createDynamicSBox (key : List Nat) : List Nat :=
  (List.range 256).foldl
    (fun s i => sboxSwap s i ((key.getD (i % key.length) 0 + i * 179426549) % 256))
    (List.range 256)

/-- Modelled from the spec: the body of `applyDynamicSubstitution` falls in
the missing (truncated) part of src/Main.js; only its call site
(lines 167-169) survives.  Spec section 4.5 says the substitution layer
"builds a 256-entry byte permutation table" with the key material
(the in-source `createDynamicSBox`) and "then maps each ciphertext byte
through the table", which is what this definition does. -/
def applyDynamicSubstitution (data keyMaterial : List Nat) : List Nat :=
  let sBox := createDynamicSBox keyMaterial
  data.map (fun b => sBox.getD (b % 256) 0)

/-! ### External primitive adapter

Spec section 4.1: random-byte generation, PBKDF2, AES-GCM, HMAC and the
SHA-2 digests "are treated as trusted black boxes with standard
contracts".  In the source they are reached through `crypto.subtle`
(src/Main.js lines 123-134, 160-164, 173-179) and through the
`deriveCryptoKey` / `exportKeyMaterial` helpers whose bodies fall in the
truncated part of the file.  They are modelled as an abstract structure;
keys and messages are byte lists. -/

/-- The external cryptographic primitives used by the enhanced pipeline.
`pbkdf2AesKey`/`pbkdf2HmacKey` model the two `deriveCryptoKey` calls
(password bytes and salt to key material), `aesGcmEncrypt` models
`crypto.subtle.encrypt` with AES-GCM (key, IV, plaintext to
ciphertext-plus-16-byte-tag), `aesGcmDecrypt` its inverse,
`hmacSha512` models `crypto.subtle.sign` with the HMAC-SHA-512 key,
`sha512` models `crypto.subtle.digest` with SHA-512, and
`exportKeyMaterial` models the raw export of the AES key. -/
structure CryptoPrimitives where
  pbkdf2AesKey : List Nat → List Nat → List Nat
  pbkdf2HmacKey : List Nat → List Nat → List Nat
  aesGcmEncrypt : List Nat → List Nat → List Nat → List Nat
  aesGcmDecrypt : List Nat → List Nat → List Nat → Option (List Nat)
  hmacSha512 : List Nat → List Nat → List Nat
  sha512 : List Nat → List Nat
  exportKeyMaterial : List Nat → List Nat

/-! ### Core pipeline (`processData`, src/Main.js lines 158-186) -/

/-- The record returned by `processData` (src/Main.js lines 181-185). -/
structure ProcessedData where
  encrypted : List Nat
  finalHash : List Nat
  hmac : List Nat

/-- `processData` (src/Main.js lines 158-186): AES-GCM encryption of the
diffused data, dynamic substitution of the ciphertext seeded by the
exported key material, SHA-512 of one more diffusion pass over the
substituted bytes, and an HMAC over the (pre-substitution) ciphertext. -/
def processData (prims : CryptoPrimitives) (data aesKey iv hmacKey : List Nat) :
    ProcessedData :=
  let encrypted := prims.aesGcmEncrypt aesKey iv (applyAvalancheEffect data)
  let substituted := applyDynamicSubstitution encrypted (prims.exportKeyMaterial aesKey)
  let finalHash := prims.sha512 (applyAvalancheEffect substituted)
  let hmac := prims.hmacSha512 hmacKey encrypted
  { encrypted := encrypted, finalHash := finalHash, hmac := hmac }

/-- Modelled from the spec: the body of `encodeSecurityPayload` falls in the
missing (truncated) part of src/Main.js.  Its call site
(src/Main.js lines 146-151) passes exactly `(salt, aesIV, hmac, finalHash)`
— and nothing else, in particular not the ciphertext — and the source
header (line 108) documents the output format as
salt, then AES-IV, then HMAC, then finalHash, which the spec's payload
codec (section 4.7) renders as plain concatenation in that order. -/
def encodeSecurityPayload (salt aesIV hmac finalHash : List Nat) : List Nat :=
  salt ++ aesIV ++ hmac ++ finalHash

/-- The 12-byte AES-GCM IV drawn by `enhancedVortexEncrypt`
(src/Main.js line 120), taken from the per-call entropy after the salt. -/
def freshIV (entropy : List Nat) : List Nat :=
  (entropy.drop 16).take 12

/-- The AES cipher key `enhancedVortexEncrypt` derives from the secret and
the per-call fresh salt (src/Main.js lines 132-133). -/
def derivedCipherKey (prims : CryptoPrimitives) (key entropy : List Nat) : List Nat :=
  prims.pbkdf2AesKey key (entropy.take 16)

/-- The HMAC key `enhancedVortexEncrypt` derives from the secret and the
per-call fresh salt (src/Main.js lines 132-134). -/
def derivedHmacKey (prims : CryptoPrimitives) (key entropy : List Nat) : List Nat :=
  prims.pbkdf2HmacKey key (entropy.take 16)

/-- `enhancedVortexEncrypt` (src/Main.js lines 117-152), the protect
operation.  The two `crypto.getRandomValues` calls (lines 119-120) are
modelled by an explicit per-call `entropy` list: the salt is its first
16 bytes and the AES IV the next 12.  `input` and `key` are byte lists
(the source's `TextEncoder().encode` of its string arguments), and the
payload is returned as bytes (the source hex-encodes the same bytes for
transport). -/
def enhancedVortexEncrypt (prims : CryptoPrimitives) (entropy input key : List Nat) :
    List Nat :=
  let salt := entropy.take 16
  let aesIV := freshIV entropy
  let aesKey := derivedCipherKey prims key entropy
  let hmacKey := derivedHmacKey prims key entropy
  let processed := processData prims input aesKey aesIV hmacKey
  encodeSecurityPayload salt aesIV processed.hmac processed.finalHash

/-! ### Decrypt/verify path, modelled from the spec

No decryption code survives in the truncated source.  Spec sections 4.7,
6 and 7 define `unprotect`: decode the fixed layout (salt 16, IV 12,
tag 64, digest 64, then the variable ciphertext field), rejecting
anything shorter than 156 bytes with `FormatError` before any
cryptographic work; then check the HMAC, check the final digest, invert
the substitution and AEAD-decrypt. -/

/-- The error taxonomy of spec section 7 relevant to `unprotect`. -/
inductive UnprotectError where
  | formatError
  | integrityFailure
  | tamperDetected
  | authenticationFailure
  deriving DecidableEq, Repr

/-- Modelled from the spec: the inverse substitution used on the decrypt
path (spec section 4.7, "invert substitution (inverse permutation
table)"); no decryption code survives in the truncated source. -/
def invertDynamicSubstitution (data keyMaterial : List Nat) : List Nat :=
  let sBox := createDynamicSBox keyMaterial
  data.map (fun b => sBox.indexOf (b % 256))

/-- Modelled from the spec: `unprotect` (spec sections 4.7, 6, 7); no
decryption code survives in the truncated source.  A payload shorter
than the 156-byte fixed-field minimum is rejected with `FormatError`
first; the primitives are consulted only after that check. -/
def unprotect (prims : CryptoPrimitives) (secret payload : List Nat) :
    Except UnprotectError (List Nat) :=
  if payload.length < 156 then
    .error .formatError
  else
    let salt := payload.take 16
    let iv := (payload.drop 16).take 12
    let tag := (payload.drop 28).take 64
    let digest := (payload.drop 92).take 64
    let ciphertext := payload.drop 156
    let aesKey := prims.pbkdf2AesKey secret salt
    let hmacKey := prims.pbkdf2HmacKey secret salt
    if prims.hmacSha512 hmacKey ciphertext ≠ tag then
      .error .integrityFailure
    else if prims.sha512 (applyAvalancheEffect
        (applyDynamicSubstitution ciphertext (prims.exportKeyMaterial aesKey))) ≠ digest then
      .error .tamperDetected
    else
      match prims.aesGcmDecrypt aesKey iv
          (invertDynamicSubstitution ciphertext (prims.exportKeyMaterial aesKey)) with
      | none => .error .authenticationFailure
      | some plaintext => .ok plaintext

/-! ### Legacy salt stage (`vortexEncrypt`, src/Main.js lines 35-38)

```
const salt = crypto.subtle.digest('SHA-256', expandedKey)
    .then(saltHash => new Uint8Array(saltHash));
const salted = substituted.map((b, i) => b ^ salt[i % salt.length]);
```
`salt` is a pending `Promise`, never awaited.  Per the ECMAScript
semantics: `salt.length` is `undefined` (a `Promise` has no `length`
property), `i % undefined` evaluates to `NaN`, and `salt[NaN]` — a
lookup of the property named "NaN" on the `Promise` object — yields
`undefined`.  In `b ^ undefined`, `ToNumber(undefined)` is `NaN` and
`ToInt32(NaN)` is `0`, so the XOR computes `b ^ 0`. -/

/-- The element `vortexEncrypt` reads from its salt at position `i`:
always `undefined` (modelled as `none`), because the salt variable holds
a pending `Promise` whose numeric-index lookup yields `undefined`. -/
def promiseSaltElem (_i : Nat) : Option Nat :=
  none

/-- The JavaScript expression `b ^ v` for a byte `b` and a possibly
`undefined` right operand: `ToInt32(undefined)` is `0`. -/
def jsXor (b : Nat) (v : Option Nat) : Nat :=
  match v with
  | none => b ^^^ 0
  | some n => b ^^^ n

/-- The salt-XOR stage of `vortexEncrypt` (src/Main.js line 38), applied
to the substituted array. -/
def saltedStage (substituted : List Nat) : List Nat :=
  substituted.mapIdx (fun i b => jsXor b (promiseSaltElem i))

/-! ## Supporting lemmas -/

theorem length_avalancheStep (st : List Nat) (i : Nat) :
    (avalancheStep st i).length = st.length :=
  List.length_set ..

theorem length_foldl_avalancheStep (is : List Nat) (s : List Nat) :
    (is.foldl avalancheStep s).length = s.length := by
  induction is generalizing s with
  | nil => rfl
  | cons j is ih =>
    rw [List.foldl_cons, ih, length_avalancheStep]

theorem getD_avalancheStep_ne (st : List Nat) {i j : Nat} (h : j ≠ i) :
    (avalancheStep st j).getD i 0 = st.getD i 0 := by
  rw [avalancheStep, List.getD_eq_getElem?_getD, List.getElem?_set_ne h,
    List.getD_eq_getElem?_getD]

theorem getD_foldl_range_avalancheStep (n : Nat) (s : List Nat) (i : Nat)
    (hin : i < n) (his : i < s.length) :
    ((List.range n).foldl avalancheStep s).getD i 0 =
      ((((List.range i).foldl avalancheStep s).getD i 0) ^^^
        (((List.range i).foldl avalancheStep s).getD ((i + 7) % s.length) 0)) * 31 % 256 := by
  induction n with
  | zero => omega
  | succ m ih =>
    rw [List.range_succ, List.foldl_append, List.foldl_cons, List.foldl_nil]
    rcases Nat.lt_or_ge i m with hlt | hge
    · rw [getD_avalancheStep_ne _ (Nat.ne_of_gt hlt)]
      exact ih hlt
    · have him : i = m := by omega
      subst him
      have hlen : ((List.range i).foldl avalancheStep s).length = s.length :=
        length_foldl_avalancheStep ..
      rw [avalancheStep, hlen, List.getD_eq_getElem?_getD,
        List.getElem?_set_eq_of_lt _ (Nat.lt_of_lt_of_eq his hlen.symm)]
      rfl

theorem avalancheRound_length (s : List Nat) :
    (avalancheRound s).length = s.length :=
  length_foldl_avalancheStep ..

theorem mapIdx_id (l : List Nat) (f : Nat → Nat → Nat) (hf : ∀ i b, f i b = b) :
    l.mapIdx f = l := by
  induction l generalizing f with
  | nil => rfl
  | cons a t ih =>
    rw [List.mapIdx_cons, hf, ih _ (fun i b => hf (i + 1) b)]

/-! ## Claim C6: structure of the diffusion pass -/

/-- Claim C6 (amended): the diffusion pass `applyAvalancheEffect` runs
exactly 3 rounds; in each round the bytes are updated in place in
ascending index order, and the byte at position `i` is replaced by
`((b XOR cur[(i+7) mod n]) * 31) mod 256` where `cur` is the current
partially updated state — the mixed-in neighbour is the byte 7 positions
ahead (circularly), not the two adjacent neighbours; the pass is
deterministic and involves no key. -/
theorem applyAvalancheEffect_three_inplace_rounds (s : List Nat) (i : Nat)
    (h : i < s.length) :
    applyAvalancheEffect s = avalancheRound (avalancheRound (avalancheRound s)) ∧
    (avalancheRound s).length = s.length ∧
    (avalancheRound s).getD i 0 =
      ((((List.range i).foldl avalancheStep s).getD i 0) ^^^
        (((List.range i).foldl avalancheStep s).getD ((i + 7) % s.length) 0)) * 31 % 256 :=
  ⟨rfl, avalancheRound_length s,
    getD_foldl_range_avalancheStep s.length s i h h⟩

theorem applyAvalancheEffect_three_inplace_rounds_witness :
    0 < (List.replicate 16 (0 : Nat)).length ∧
    applyAvalancheEffect (List.replicate 16 0) =
      avalancheRound (avalancheRound (avalancheRound (List.replicate 16 0))) ∧
    (avalancheRound (List.replicate 16 0)).length = (List.replicate 16 (0 : Nat)).length ∧
    (avalancheRound (List.replicate 16 0)).getD 0 0 =
      ((((List.range 0).foldl avalancheStep (List.replicate 16 0)).getD 0 0) ^^^
        (((List.range 0).foldl avalancheStep (List.replicate 16 0)).getD
          ((0 + 7) % (List.replicate 16 (0 : Nat)).length) 0)) * 31 % 256 :=
  ⟨by decide, applyAvalancheEffect_three_inplace_rounds (List.replicate 16 0) 0 (by decide)⟩

/-- The first counterexample input for claim C6: sixteen zero bytes. -/
def cexZeros : List Nat :=
  List.replicate 16 0

/-- The second counterexample input for claim C6: sixteen zero bytes with
a 1 at position 8, which is neither adjacent to position 1 nor within the
radius-3 circular window {14, 15, 0, 1, 2, 3, 4} around it. -/
def cexOneAt8 : List Nat :=
  (List.replicate 16 0).set 8 1

/-- A diffusion round exactly as claim C6 describes one: every byte is
replaced by a function `g` of itself and its two positional neighbours
(left and right, with circular indexing), in the manner of the spec's
example formula and of the legacy `avalancheEffect`, which map over the
previous state.  `g` is arbitrary, so it may also absorb a trailing
per-byte multiplicative/rotate step. -/
def neighbourRound (g : Nat → Nat → Nat → Nat) (s : List Nat) : List Nat :=
  (List.range s.length).map (fun i =>
    g (s.getD i 0) (s.getD ((i + s.length - 1) % s.length) 0)
      (s.getD ((i + 1) % s.length) 0))

theorem length_neighbourRound (g : Nat → Nat → Nat → Nat) (s : List Nat) :
    (neighbourRound g s).length = s.length := by
  rw [neighbourRound, List.length_map, List.length_range]

theorem getD_neighbourRound (g : Nat → Nat → Nat → Nat) (s : List Nat) (i : Nat)
    (h : i < s.length) :
    (neighbourRound g s).getD i 0 =
      g (s.getD i 0) (s.getD ((i + s.length - 1) % s.length) 0)
        (s.getD ((i + 1) % s.length) 0) := by
  rw [neighbourRound, List.getD_eq_getElem?_getD, List.getElem?_map,
    List.getElem?_range h]
  rfl

/-- Claim C6 (counterexample): the diffusion pass is not three rounds of
neighbour-local byte replacement.  First conjunct: no three per-byte
functions of (self, left, right) — one per round, the last free to absorb
a trailing multiplicative/rotate step — compose to `applyAvalancheEffect`:
the inputs `cexZeros` and `cexOneAt8` agree everywhere except at
position 8, which lies outside the radius-3 window {14,15,0,1,2,3,4}
that three neighbour-local rounds would allow index 1 to depend on, yet
the outputs of the pass differ at index 1 (0 versus 95).  Second
conjunct: a single round of the implemented pass is itself not a
function of (self, left, right) of its input: the same two inputs agree
at positions 0, 1, 2 but `avalancheRound` already differs at index 1
(0 versus 31), because the implementation mixes in the byte 7 positions
ahead. -/
theorem applyAvalancheEffect_not_three_neighbour_rounds :
    (¬ ∃ g1 g2 g3 : Nat → Nat → Nat → Nat, ∀ s : List Nat,
        applyAvalancheEffect s =
          neighbourRound g3 (neighbourRound g2 (neighbourRound g1 s))) ∧
    (¬ ∃ f : Nat → Nat → Nat → Nat,
        ∀ (s : List Nat) (i : Nat), i < s.length →
          (avalancheRound s).getD i 0 =
            f (s.getD i 0) (s.getD ((i + s.length - 1) % s.length) 0)
              (s.getD ((i + 1) % s.length) 0)) := by
  constructor
  · rintro ⟨g1, g2, g3, hg⟩
    have hl1 : cexZeros.length = 16 := by decide
    have hl2 : cexOneAt8.length = 16 := by decide
    have hR1a : (neighbourRound g1 cexZeros).length = 16 := by
      rw [length_neighbourRound, hl1]
    have hR1b : (neighbourRound g1 cexOneAt8).length = 16 := by
      rw [length_neighbourRound, hl2]
    have hR2a : (neighbourRound g2 (neighbourRound g1 cexZeros)).length = 16 := by
      rw [length_neighbourRound, hR1a]
    have hR2b : (neighbourRound g2 (neighbourRound g1 cexOneAt8)).length = 16 := by
      rw [length_neighbourRound, hR1b]
    have key : ∀ j, j < 16 → j ≠ 8 → cexZeros.getD j 0 = cexOneAt8.getD j 0 := by
      decide
    have L1 : ∀ j, j < 16 → j ≠ 7 → j ≠ 8 → j ≠ 9 →
        (neighbourRound g1 cexZeros).getD j 0 =
          (neighbourRound g1 cexOneAt8).getD j 0 := by
      intro j hj h7 h8 h9
      rw [getD_neighbourRound g1 cexZeros j (by rw [hl1]; exact hj),
        getD_neighbourRound g1 cexOneAt8 j (by rw [hl2]; exact hj), hl1, hl2,
        key j hj h8,
        key ((j + 16 - 1) % 16) (by omega) (by omega),
        key ((j + 1) % 16) (by omega) (by omega)]
    have L2 : ∀ j, j < 16 → j ≠ 6 → j ≠ 7 → j ≠ 8 → j ≠ 9 → j ≠ 10 →
        (neighbourRound g2 (neighbourRound g1 cexZeros)).getD j 0 =
          (neighbourRound g2 (neighbourRound g1 cexOneAt8)).getD j 0 := by
      intro j hj h6 h7 h8 h9 h10
      rw [getD_neighbourRound g2 _ j (by rw [hR1a]; exact hj),
        getD_neighbourRound g2 _ j (by rw [hR1b]; exact hj), hR1a, hR1b,
        L1 j hj h7 h8 h9,
        L1 ((j + 16 - 1) % 16) (by omega) (by omega) (by omega) (by omega),
        L1 ((j + 1) % 16) (by omega) (by omega) (by omega) (by omega)]
    have L3 : (neighbourRound g3 (neighbourRound g2 (neighbourRound g1 cexZeros))).getD 1 0 =
        (neighbourRound g3 (neighbourRound g2 (neighbourRound g1 cexOneAt8))).getD 1 0 := by
      rw [getD_neighbourRound g3 _ 1 (by rw [hR2a]; decide),
        getD_neighbourRound g3 _ 1 (by rw [hR2b]; decide), hR2a, hR2b,
        L2 1 (by decide) (by decide) (by decide) (by decide) (by decide) (by decide),
        L2 ((1 + 16 - 1) % 16) (by decide) (by decide) (by decide) (by decide)
          (by decide) (by decide),
        L2 ((1 + 1) % 16) (by decide) (by decide) (by decide) (by decide)
          (by decide) (by decide)]
    have hA : (applyAvalancheEffect cexZeros).getD 1 0 =
        (neighbourRound g3 (neighbourRound g2 (neighbourRound g1 cexZeros))).getD 1 0 := by
      rw [hg cexZeros]
    have hB : (applyAvalancheEffect cexOneAt8).getD 1 0 =
        (neighbourRound g3 (neighbourRound g2 (neighbourRound g1 cexOneAt8))).getD 1 0 := by
      rw [hg cexOneAt8]
    rw [show (applyAvalancheEffect cexZeros).getD 1 0 = 0 from by decide] at hA
    rw [show (applyAvalancheEffect cexOneAt8).getD 1 0 = 95 from by decide] at hB
    exact absurd (hA.trans (L3.trans hB.symm)) (by decide)
  · rintro ⟨f, hf⟩
    have h1 := hf cexZeros 1 (by decide)
    have h2 := hf cexOneAt8 1 (by decide)
    rw [show (avalancheRound cexZeros).getD 1 0 = 0 from by decide,
      show cexZeros.getD 1 0 = 0 from by decide,
      show cexZeros.getD ((1 + cexZeros.length - 1) % cexZeros.length) 0 = 0 from by decide,
      show cexZeros.getD ((1 + 1) % cexZeros.length) 0 = 0 from by decide] at h1
    rw [show (avalancheRound cexOneAt8).getD 1 0 = 31 from by decide,
      show cexOneAt8.getD 1 0 = 0 from by decide,
      show cexOneAt8.getD ((1 + cexOneAt8.length - 1) % cexOneAt8.length) 0 = 0
        from by decide,
      show cexOneAt8.getD ((1 + 1) % cexOneAt8.length) 0 = 0 from by decide] at h2
    exact absurd (h1.trans h2.symm) (by decide)

/-! ## Claim C3: the integrity tag binds the pre-substitution ciphertext -/

/-- Claim C3: the integrity tag computed by `processData` is the HMAC of
the AES-GCM output itself — the ciphertext before the dynamic
substitution layer is applied — under the integrity key. -/
theorem processData_hmac_pre_substitution (prims : CryptoPrimitives)
    (data aesKey iv hmacKey : List Nat) :
    (processData prims data aesKey iv hmacKey).hmac =
      prims.hmacSha512 hmacKey
        (prims.aesGcmEncrypt aesKey iv (applyAvalancheEffect data)) ∧
    (processData prims data aesKey iv hmacKey).hmac =
      prims.hmacSha512 hmacKey (processData prims data aesKey iv hmacKey).encrypted :=
  ⟨rfl, rfl⟩

/-! ## Claim C4: the final digest covers the diffused substituted bytes -/

/-- Claim C4: the final digest computed by `processData` is SHA-512 of
one avalanche-diffusion pass over the substituted ciphertext, where the
substituted ciphertext is the dynamic substitution of the AES-GCM output
seeded by the exported key material. -/
theorem processData_finalHash_post_substitution (prims : CryptoPrimitives)
    (data aesKey iv hmacKey : List Nat) :
    (processData prims data aesKey iv hmacKey).finalHash =
      prims.sha512 (applyAvalancheEffect
        (applyDynamicSubstitution (processData prims data aesKey iv hmacKey).encrypted
          (prims.exportKeyMaterial aesKey))) :=
  rfl

/-! ## Claim C7: short payloads are rejected before cryptographic work -/

/-- Claim C7: `unprotect` rejects every byte sequence shorter than the
156-byte fixed-field minimum with `FormatError`; the result is the same
for every primitive family, so no key derivation, HMAC, digest or
decryption influences (or is needed for) the rejection. -/
theorem unprotect_short_payload_format_error (prims : CryptoPrimitives)
    (secret payload : List Nat) (h : payload.length < 156) :
    unprotect prims secret payload = Except.error UnprotectError.formatError := by
  rw [unprotect, if_pos h]

theorem unprotect_short_payload_format_error_witness :
    ([] : List Nat).length < 156 ∧
    ∀ prims : CryptoPrimitives, unprotect prims [] [] =
      Except.error UnprotectError.formatError :=
  ⟨by decide, fun prims => unprotect_short_payload_format_error prims [] [] (by decide)⟩

/-! ## Claim C10: the legacy salt-XOR stage is the identity -/

/-- Claim C10: in the legacy `vortexEncrypt`, the salt-XOR step is an
identity transformation: the salt variable holds a pending promise, so
every element lookup yields `undefined`, and XOR with `undefined`
coerces to XOR with 0; hence for every input and key the salted array
equals the substituted array it is computed from. -/
theorem saltedStage_identity (substituted : List Nat) :
    saltedStage substituted = substituted := by
  refine mapIdx_id substituted _ (fun i b => ?_)
  rw [promiseSaltElem, jsXor, Nat.xor_zero]

/-! ## Claim C9: the dynamic S-box is a permutation of 0..255 -/

theorem getD_set_cons_perm :
    ∀ (t : List Nat) (k : Nat), k < t.length → ∀ x : Nat,
      List.Perm (t.getD k 0 :: t.set k x) (x :: t) := by
  intro t
  induction t with
  | nil =>
    intro k hk
    simp at hk
  | cons y t ih =>
    intro k hk x
    match k with
    | 0 =>
      exact List.Perm.swap x y t
    | m + 1 =>
      have hm : m < t.length := by simpa using hk
      exact ((List.Perm.swap y (t.getD m 0) (t.set m x)).trans
        (List.Perm.cons y (ih m hm x))).trans (List.Perm.swap x y t)

theorem sboxSwap_perm :
    ∀ (l : List Nat) (i j : Nat), i < l.length → j < l.length →
      List.Perm (sboxSwap l i j) l := by
  intro l
  induction l with
  | nil =>
    intro i j hi
    simp at hi
  | cons x t ih =>
    intro i j hi hj
    match i, j with
    | 0, 0 =>
      exact List.Perm.refl _
    | 0, k + 1 =>
      have hk : k < t.length := by simpa using hj
      exact getD_set_cons_perm t k hk x
    | m + 1, 0 =>
      have hm : m < t.length := by simpa using hi
      exact getD_set_cons_perm t m hm x
    | m + 1, k + 1 =>
      have hm : m < t.length := by simpa using hi
      have hk : k < t.length := by simpa using hj
      exact List.Perm.cons x (ih m k hm hk)

/-- Claim C9: for every non-empty key byte array, `createDynamicSBox`
builds a 256-entry table that is a permutation of the byte values
0..255 — each value appears exactly once — via its Fisher-Yates-style
key-driven swaps. -/
theorem createDynamicSBox_perm (key : List Nat) (_hk : key ≠ []) :
    List.Perm (createDynamicSBox key) (List.range 256) ∧
    (createDynamicSBox key).length = 256 := by
  have main : ∀ is : List Nat, (∀ i ∈ is, i < 256) → ∀ s : List Nat,
      List.Perm s (List.range 256) →
      List.Perm
        (is.foldl
          (fun s i => sboxSwap s i ((key.getD (i % key.length) 0 + i * 179426549) % 256))
          s)
        (List.range 256) := by
    intro is
    induction is with
    | nil => exact fun _ s hs => hs
    | cons j js ih =>
      intro hmem s hs
      rw [List.foldl_cons]
      refine ih (fun i hi => hmem i (List.mem_cons_of_mem _ hi)) _ ?_
      have hlen : s.length = 256 := by
        rw [hs.length_eq, List.length_range]
      refine (sboxSwap_perm s j _ ?_ ?_).trans hs
      · rw [hlen]
        exact hmem j (List.mem_cons_self ..)
      · rw [hlen]
        exact Nat.mod_lt _ (by norm_num)
  have hperm : List.Perm (createDynamicSBox key) (List.range 256) :=
    main (List.range 256) (fun i hi => List.mem_range.mp hi) (List.range 256)
      (List.Perm.refl _)
  exact ⟨hperm, by rw [hperm.length_eq, List.length_range]⟩

theorem createDynamicSBox_perm_witness :
    ([1, 2, 3] : List Nat) ≠ [] ∧
    (List.Perm (createDynamicSBox [1, 2, 3]) (List.range 256) ∧
      (createDynamicSBox [1, 2, 3]).length = 256) :=
  ⟨by decide, createDynamicSBox_perm [1, 2, 3] (by decide)⟩

/-! ## Payload structure lemmas -/

/-- The integrity tag of the enhanced pipeline, as derived and computed by
`enhancedVortexEncrypt` for a given per-call entropy. -/
def payloadTag (prims : CryptoPrimitives) (entropy input key : List Nat) : List Nat :=
  (processData prims input (derivedCipherKey prims key entropy) (freshIV entropy)
    (derivedHmacKey prims key entropy)).hmac

/-- The final digest of the enhanced pipeline, as derived and computed by
`enhancedVortexEncrypt` for a given per-call entropy. -/
def payloadDigest (prims : CryptoPrimitives) (entropy input key : List Nat) : List Nat :=
  (processData prims input (derivedCipherKey prims key entropy) (freshIV entropy)
    (derivedHmacKey prims key entropy)).finalHash

theorem payloadTag_eq (prims : CryptoPrimitives) (entropy input key : List Nat) :
    payloadTag prims entropy input key =
      prims.hmacSha512 (derivedHmacKey prims key entropy)
        (prims.aesGcmEncrypt (derivedCipherKey prims key entropy) (freshIV entropy)
          (applyAvalancheEffect input)) :=
  rfl

theorem payloadDigest_eq (prims : CryptoPrimitives) (entropy input key : List Nat) :
    payloadDigest prims entropy input key =
      prims.sha512 (applyAvalancheEffect (applyDynamicSubstitution
        (prims.aesGcmEncrypt (derivedCipherKey prims key entropy) (freshIV entropy)
          (applyAvalancheEffect input))
        (prims.exportKeyMaterial (derivedCipherKey prims key entropy)))) :=
  rfl

theorem enhancedVortexEncrypt_parts (prims : CryptoPrimitives)
    (entropy input key : List Nat) :
    enhancedVortexEncrypt prims entropy input key =
      ((entropy.take 16 ++ freshIV entropy) ++ payloadTag prims entropy input key) ++
        payloadDigest prims entropy input key :=
  rfl

theorem freshIV_length (entropy : List Nat) (he : entropy.length = 28) :
    (freshIV entropy).length = 12 := by
  rw [freshIV, List.length_take, List.length_drop, he]
  decide

theorem salt_length (entropy : List Nat) (he : entropy.length = 28) :
    (entropy.take 16).length = 16 := by
  rw [List.length_take, he]
  decide

theorem payloadTag_length (prims : CryptoPrimitives) (entropy input key : List Nat)
    (hh : ∀ k m, (prims.hmacSha512 k m).length = 64) :
    (payloadTag prims entropy input key).length = 64 := by
  rw [payloadTag_eq]
  exact hh _ _

theorem payloadDigest_length (prims : CryptoPrimitives) (entropy input key : List Nat)
    (hd : ∀ m, (prims.sha512 m).length = 64) :
    (payloadDigest prims entropy input key).length = 64 := by
  rw [payloadDigest_eq]
  exact hd _

theorem enhancedVortexEncrypt_length (prims : CryptoPrimitives)
    (entropy input key : List Nat)
    (hh : ∀ k m, (prims.hmacSha512 k m).length = 64)
    (hd : ∀ m, (prims.sha512 m).length = 64)
    (he : entropy.length = 28) :
    (enhancedVortexEncrypt prims entropy input key).length = 156 := by
  rw [enhancedVortexEncrypt_parts, List.length_append, List.length_append,
    List.length_append, salt_length entropy he, freshIV_length entropy he,
    payloadTag_length prims entropy input key hh,
    payloadDigest_length prims entropy input key hd]

/-! ## Claim C5: the stored integrity tag is the full 64-byte HMAC -/

/-- Claim C5: the integrity-tag field of the payload — bytes 28 to 91 —
is exactly the full HMAC value computed by `processData`, and that value
is 64 bytes long (HMAC-SHA-512 output), not a 32-byte truncation: the
payload carries every byte of the tag. -/
theorem payload_tag_full_hmac (prims : CryptoPrimitives) (entropy input key : List Nat)
    (hh : ∀ k m, (prims.hmacSha512 k m).length = 64)
    (he : entropy.length = 28) :
    ((enhancedVortexEncrypt prims entropy input key).drop 28).take 64 =
      payloadTag prims entropy input key ∧
    (payloadTag prims entropy input key).length = 64 := by
  have htag := payloadTag_length prims entropy input key hh
  constructor
  · rw [enhancedVortexEncrypt_parts, List.append_assoc,
      List.drop_left' (by rw [List.length_append, salt_length entropy he,
        freshIV_length entropy he]),
      List.take_left' htag]
  · exact htag

/-- A concrete primitive family satisfying the length and byte-range
contracts of spec section 4.1, used to instantiate the hypotheses of the
payload theorems on explicit inputs.  The key derivations return the
salt itself (injective in the salt), AES-GCM appends a 16-byte tag of
zeros, and HMAC-SHA-512 and SHA-512 return 64 zero bytes. -/
def primsZ : CryptoPrimitives where
  pbkdf2AesKey := fun _ salt => salt
  pbkdf2HmacKey := fun _ salt => salt
  aesGcmEncrypt := fun _ _ plaintext => plaintext ++ List.replicate 16 0
  aesGcmDecrypt := fun _ _ ciphertext => some ciphertext
  hmacSha512 := fun _ _ => List.replicate 64 0
  sha512 := fun _ => List.replicate 64 0
  exportKeyMaterial := fun k => k

/-- A concrete 28-byte per-call entropy (16-byte salt plus 12-byte IV)
used to instantiate the payload theorems. -/
def entropyZ : List Nat :=
  List.replicate 28 0

theorem payload_tag_full_hmac_witness :
    (∀ k m : List Nat, (primsZ.hmacSha512 k m).length = 64) ∧
    entropyZ.length = 28 ∧
    ((((enhancedVortexEncrypt primsZ entropyZ [1, 2] [3]).drop 28).take 64 =
        payloadTag primsZ entropyZ [1, 2] [3]) ∧
      (payloadTag primsZ entropyZ [1, 2] [3]).length = 64) :=
  ⟨fun _ _ => by simp [primsZ], by simp [entropyZ],
    payload_tag_full_hmac primsZ entropyZ [1, 2] [3]
      (fun _ _ => by simp [primsZ]) (by simp [entropyZ])⟩

/-! ## Claim C8: fresh salt and IV per call, no (cipherKey, IV) reuse -/

/-- Claim C8: every call to `enhancedVortexEncrypt` uses exactly the
fresh random bytes drawn for that call — the payload's salt field is the
call's first 16 entropy bytes and its IV field the next 12 (no stored
nonce or counter is reused) — and two calls whose 28 random bytes
differ produce different (cipherKey, IV) pairs, provided the key
derivation is injective in the salt (distinct salts give distinct
keys; with a real PBKDF2 a collision instead has negligible
probability, which is what the spec's invariant relies on). -/
theorem fresh_salt_iv_no_reuse (prims : CryptoPrimitives) (secret p e1 e2 : List Nat)
    (h1 : e1.length = 28) (h2 : e2.length = 28) (hne : e1 ≠ e2)
    (hinj : ∀ s t : List Nat,
      prims.pbkdf2AesKey secret s = prims.pbkdf2AesKey secret t → s = t) :
    (enhancedVortexEncrypt prims e1 p secret).take 16 = e1.take 16 ∧
    ((enhancedVortexEncrypt prims e1 p secret).drop 16).take 12 = freshIV e1 ∧
    (derivedCipherKey prims secret e1, freshIV e1) ≠
      (derivedCipherKey prims secret e2, freshIV e2) := by
  refine ⟨?_, ?_, ?_⟩
  · rw [enhancedVortexEncrypt_parts, List.append_assoc, List.append_assoc,
      List.take_left' (salt_length e1 h1)]
  · rw [enhancedVortexEncrypt_parts, List.append_assoc, List.append_assoc,
      List.drop_left' (salt_length e1 h1),
      List.take_left' (freshIV_length e1 h1)]
  · intro hpair
    rw [Prod.mk.injEq] at hpair
    have hsalt : e1.take 16 = e2.take 16 := hinj _ _ hpair.1
    have hiv1 : freshIV e1 = e1.drop 16 :=
      List.take_of_length_le (by rw [List.length_drop, h1])
    have hiv2 : freshIV e2 = e2.drop 16 :=
      List.take_of_length_le (by rw [List.length_drop, h2])
    have hdrop : e1.drop 16 = e2.drop 16 := by
      rw [← hiv1, ← hiv2]
      exact hpair.2
    exact hne (by rw [← List.take_append_drop 16 e1, hsalt, hdrop,
      List.take_append_drop 16 e2])

theorem fresh_salt_iv_no_reuse_witness :
    (List.replicate 28 (0 : Nat)).length = 28 ∧
    ((List.replicate 27 0 ++ [1] : List Nat)).length = 28 ∧
    (List.replicate 28 (0 : Nat)) ≠ (List.replicate 27 0 ++ [1]) ∧
    ((enhancedVortexEncrypt primsZ (List.replicate 28 0) [5] [7]).take 16 =
        (List.replicate 28 (0 : Nat)).take 16 ∧
      ((enhancedVortexEncrypt primsZ (List.replicate 28 0) [5] [7]).drop 16).take 12 =
        freshIV (List.replicate 28 0) ∧
      (derivedCipherKey primsZ [7] (List.replicate 28 0),
          freshIV (List.replicate 28 0)) ≠
        (derivedCipherKey primsZ [7] (List.replicate 27 0 ++ [1]),
          freshIV (List.replicate 27 0 ++ [1]))) :=
  ⟨by simp, by simp, by decide,
    fresh_salt_iv_no_reuse primsZ [7] [5] (List.replicate 28 0) (List.replicate 27 0 ++ [1])
      (by simp) (by simp) (by decide) (fun s t hst => hst)⟩

/-! ## Claim C2: the payload carries no ciphertext field -/

/-- Claim C2 (code evaluation): for every primitive family satisfying the
output-length contracts, the payload assembled by `enhancedVortexEncrypt`
is exactly 16 + 12 + 64 + 64 = 156 bytes, independent of the plaintext,
and is therefore strictly shorter than the 156 + len(ciphertext) bytes
the claim requires: the variable-length ciphertext field is absent
(`processData` returns the ciphertext but the call at
src/Main.js lines 146-151 does not pass it to the payload encoder). -/
theorem payload_has_no_ciphertext_field (prims : CryptoPrimitives)
    (entropy input key : List Nat)
    (hh : ∀ k m, (prims.hmacSha512 k m).length = 64)
    (hd : ∀ m, (prims.sha512 m).length = 64)
    (he : entropy.length = 28)
    (hct : ∀ k iv p, (prims.aesGcmEncrypt k iv p).length = p.length + 16) :
    (enhancedVortexEncrypt prims entropy input key).length = 156 ∧
    (enhancedVortexEncrypt prims entropy input key).length <
      16 + 12 + 64 + 64 +
        (prims.aesGcmEncrypt (derivedCipherKey prims key entropy) (freshIV entropy)
          (applyAvalancheEffect input)).length := by
  have hlen := enhancedVortexEncrypt_length prims entropy input key hh hd he
  refine ⟨hlen, ?_⟩
  rw [hlen, hct]
  omega

theorem payload_has_no_ciphertext_field_witness :
    (∀ k m : List Nat, (primsZ.hmacSha512 k m).length = 64) ∧
    (∀ m : List Nat, (primsZ.sha512 m).length = 64) ∧
    entropyZ.length = 28 ∧
    (∀ k iv p : List Nat, (primsZ.aesGcmEncrypt k iv p).length = p.length + 16) ∧
    ((enhancedVortexEncrypt primsZ entropyZ [104, 101, 108, 108, 111] [112, 119]).length
        = 156 ∧
      (enhancedVortexEncrypt primsZ entropyZ [104, 101, 108, 108, 111] [112, 119]).length <
        16 + 12 + 64 + 64 +
          (primsZ.aesGcmEncrypt (derivedCipherKey primsZ [112, 119] entropyZ)
            (freshIV entropyZ)
            (applyAvalancheEffect [104, 101, 108, 108, 111])).length) :=
  ⟨fun _ _ => by simp [primsZ], fun _ => by simp [primsZ], by simp [entropyZ],
    fun _ _ _ => by simp [primsZ],
    payload_has_no_ciphertext_field primsZ entropyZ [104, 101, 108, 108, 111] [112, 119]
      (fun _ _ => by simp [primsZ]) (fun _ => by simp [primsZ]) (by simp [entropyZ])
      (fun _ _ _ => by simp [primsZ])⟩

/-! ## Claim C1: no decryption function can round-trip the payload -/

theorem getD_lt_of_forall_mem_lt (l : List Nat) (hb : ∀ b ∈ l, b < 256) (j : Nat) :
    l.getD j 0 < 256 := by
  rw [List.getD_eq_getElem?_getD]
  cases h : l[j]? with
  | none => simp
  | some x => simpa using hb x (List.getElem?_mem h)

theorem enhancedVortexEncrypt_mem_lt (prims : CryptoPrimitives)
    (entropy input key : List Nat)
    (hhb : ∀ k m, ∀ b ∈ prims.hmacSha512 k m, b < 256)
    (hdb : ∀ m, ∀ b ∈ prims.sha512 m, b < 256)
    (heb : ∀ b ∈ entropy, b < 256) :
    ∀ b ∈ enhancedVortexEncrypt prims entropy input key, b < 256 := by
  intro b hb
  rw [enhancedVortexEncrypt_parts] at hb
  rcases List.mem_append.mp hb with hb | hb
  · rcases List.mem_append.mp hb with hb | hb
    · rcases List.mem_append.mp hb with hb | hb
      · exact heb b (List.take_subset _ _ hb)
      · exact heb b (List.drop_subset _ _ (List.take_subset _ _ hb))
    · rw [payloadTag_eq] at hb
      exact hhb _ _ b hb
  · rw [payloadDigest_eq] at hb
    exact hdb _ b hb

/-- Claim C1 (code evaluation): the round-trip property is unsatisfiable
for the payload the code produces.  For every primitive family
satisfying the output-length and byte-range contracts, and every
28-byte entropy, the payload of `enhancedVortexEncrypt` lives in the
finite set of 156-byte strings, so no function `u` — no candidate
`unprotect(S, ·)` — can recover every plaintext from its payload: the
ciphertext needed for decryption was discarded. -/
theorem roundtrip_unsatisfiable (prims : CryptoPrimitives) (entropy secret : List Nat)
    (hh : ∀ k m, (prims.hmacSha512 k m).length = 64)
    (hhb : ∀ k m, ∀ b ∈ prims.hmacSha512 k m, b < 256)
    (hd : ∀ m, (prims.sha512 m).length = 64)
    (hdb : ∀ m, ∀ b ∈ prims.sha512 m, b < 256)
    (he : entropy.length = 28)
    (heb : ∀ b ∈ entropy, b < 256) :
    ∀ u : List Nat → List Nat,
      ¬ ∀ input : List Nat,
        u (enhancedVortexEncrypt prims entropy input secret) = input := by
  intro u hu
  have hlen : ∀ input : List Nat,
      (enhancedVortexEncrypt prims entropy input secret).length = 156 :=
    fun input => enhancedVortexEncrypt_length prims entropy input secret hh hd he
  have hinj : ∀ a b : List Nat,
      enhancedVortexEncrypt prims entropy a secret =
        enhancedVortexEncrypt prims entropy b secret → a = b := by
    intro a b hab
    rw [← hu a, ← hu b, hab]
  obtain ⟨a, b, hne, heq⟩ := Finite.exists_ne_map_eq_of_infinite
    (fun input : List Nat => fun j : Fin 156 =>
      (⟨(enhancedVortexEncrypt prims entropy input secret).getD j.val 0,
        getD_lt_of_forall_mem_lt _
          (enhancedVortexEncrypt_mem_lt prims entropy input secret hhb hdb heb)
          j.val⟩ : Fin 256))
  refine hne (hinj a b ?_)
  refine List.ext_getElem (by rw [hlen a, hlen b]) ?_
  intro n hn1 hn2
  have hn : n < 156 := by
    rw [hlen a] at hn1
    exact hn1
  have hfin := congrFun heq ⟨n, hn⟩
  have hv : (enhancedVortexEncrypt prims entropy a secret).getD n 0 =
      (enhancedVortexEncrypt prims entropy b secret).getD n 0 :=
    congrArg Fin.val hfin
  rw [List.getD_eq_getElem?_getD, List.getD_eq_getElem?_getD,
    List.getElem?_eq_getElem hn1, List.getElem?_eq_getElem hn2] at hv
  simpa using hv

theorem roundtrip_unsatisfiable_witness :
    (∀ k m : List Nat, (primsZ.hmacSha512 k m).length = 64) ∧
    entropyZ.length = 28 ∧
    ∀ u : List Nat → List Nat,
      ¬ ∀ input : List Nat,
        u (enhancedVortexEncrypt primsZ entropyZ input [112, 119]) = input :=
  ⟨fun _ _ => by simp [primsZ], by simp [entropyZ],
    roundtrip_unsatisfiable primsZ entropyZ [112, 119]
      (fun _ _ => by simp [primsZ])
      (fun _ _ b hb => by
        rw [show primsZ.hmacSha512 _ _ = List.replicate 64 0 from rfl] at hb
        have := List.eq_of_mem_replicate hb
        omega)
      (fun _ => by simp [primsZ])
      (fun _ b hb => by
        rw [show primsZ.sha512 _ = List.replicate 64 0 from rfl] at hb
        have := List.eq_of_mem_replicate hb
        omega)
      (by simp [entropyZ])
      (fun b hb => by
        rw [show entropyZ = List.replicate 28 0 from rfl] at hb
        have := List.eq_of_mem_replicate hb
        omega)⟩

end ASHF
